import Mathlib

/-!
Verification of the nextdns DNS proxy against its specification.

The development shallowly embeds the Go sources under scrutiny:
* `proxy/bufferpool.go` — the tiered buffer pool (`TieredBufferPool`),
* `proxy/tcp.go` — the per-connection TCP serving loop (`serveTCPConn`),
  its per-query task, and the frame reader (`readTCP`),
* the DNS53 resolver's bounded UDP read loop (modelled from the spec,
  as `dns53.go` itself only ships with its tests here).

Machine integers are modelled as `Int`/`Nat` (Go `int` sizes become `Int`
where negative values are representable, byte values are reduced `% 256`).
Concurrency is modelled twice: a functional run of the connection loop
collecting resource-accounting effects, and a small-step interleaving
machine for the join-before-close ordering property.
-/

/-! ## Tiered buffer pool (proxy/bufferpool.go)

A pooled buffer is identified by its capacity, the only attribute the
pool's logic inspects.  Each `sync.Pool` tier is modelled as a freelist:
`Get` pops the freelist if nonempty and otherwise allocates a fresh
buffer of the tier's size (the pool's `New` function); `Put` pushes onto
the freelist selected by the buffer's exact capacity. -/

/-- A pooled byte buffer; only its capacity is relevant to pool logic. -/
structure Buffer where
  capacity : Nat
deriving DecidableEq

/-- Tier size of the small pool (bufferpool.go line 19). -/
def smallBufSize : Nat := 512

/-- Tier size of the medium pool (bufferpool.go line 25). -/
def mediumBufSize : Nat := 4096

/-- Tier size of the large pool (bufferpool.go line 31). -/
def largeBufSize : Nat := 65536

/-- The tiered pool: one freelist per tier. -/
structure TieredBufferPool where
  small : List Buffer
  medium : List Buffer
  large : List Buffer
deriving DecidableEq

/-- `NewTieredBufferPool` starts with empty freelists; each tier's `New`
function (modelled inside `poolGet`) allocates the tier's size on demand. -/
def NewTieredBufferPool : TieredBufferPool :=
  { small := [], medium := [], large := [] }

/-- One `sync.Pool.Get`: pop the freelist, or allocate a fresh buffer of
the tier's configured size. -/
def poolGet (freelist : List Buffer) (newCap : Nat) : Buffer × List Buffer :=
  match freelist with
  | [] => ({ capacity := newCap }, [])
  | b :: bs => (b, bs)

/-- `Get` returns a buffer of at least the requested size, choosing the
smallest adequate tier (bufferpool.go lines 40-49).  Go's `size` is a
signed `int`, hence `Int` here; `size <= 512` admits negative sizes. -/
def TieredBufferPool.Get (p : TieredBufferPool) (size : Int) : Buffer × TieredBufferPool :=
  if size ≤ 512 then
    ((poolGet p.small smallBufSize).1, { p with small := (poolGet p.small smallBufSize).2 })
  else if size ≤ 4096 then
    ((poolGet p.medium mediumBufSize).1, { p with medium := (poolGet p.medium mediumBufSize).2 })
  else
    ((poolGet p.large largeBufSize).1, { p with large := (poolGet p.large largeBufSize).2 })

/-- `Put` returns a buffer to the pool matching its exact capacity; `nil`
and buffers of non-standard capacity are ignored (bufferpool.go 52-64). -/
def TieredBufferPool.Put (p : TieredBufferPool) (buf : Option Buffer) : TieredBufferPool :=
  match buf with
  | none => p
  | some b =>
    if b.capacity = 512 then { p with small := b :: p.small }
    else if b.capacity = 4096 then { p with medium := b :: p.medium }
    else if b.capacity = 65536 then { p with large := b :: p.large }
    else p

/-- `GetLarge` always draws from the large tier (bufferpool.go 68-70). -/
def TieredBufferPool.GetLarge (p : TieredBufferPool) : Buffer × TieredBufferPool :=
  ((poolGet p.large largeBufSize).1, { p with large := (poolGet p.large largeBufSize).2 })

/-- The three tiers. -/
inductive Tier where
  | small
  | medium
  | large
deriving DecidableEq

/-- The capacity constant of each tier. -/
def tierCap : Tier → Nat
  | .small => smallBufSize
  | .medium => mediumBufSize
  | .large => largeBufSize

/-- The tier `Get` selects for a requested size (mirrors the branch
structure of `Get`). -/
def tierFor (size : Int) : Tier :=
  if size ≤ 512 then .small else if size ≤ 4096 then .medium else .large

/-- Push a buffer onto the freelist of the given tier. -/
def pushTier (p : TieredBufferPool) (t : Tier) (b : Buffer) : TieredBufferPool :=
  match t with
  | .small => { p with small := b :: p.small }
  | .medium => { p with medium := b :: p.medium }
  | .large => { p with large := b :: p.large }

/-- Pool well-formedness: every freelist holds only buffers of its tier's
capacity.  `NewTieredBufferPool` establishes it and every operation
preserves it, so every pool the program ever holds satisfies it. -/
def PoolWF (p : TieredBufferPool) : Prop :=
  (∀ b ∈ p.small, b.capacity = smallBufSize) ∧
  (∀ b ∈ p.medium, b.capacity = mediumBufSize) ∧
  (∀ b ∈ p.large, b.capacity = largeBufSize)

lemma poolGet_capacity {l : List Buffer} {c : Nat}
    (h : ∀ b ∈ l, b.capacity = c) : (poolGet l c).1.capacity = c := by
  cases l with
  | nil => rfl
  | cons b bs => exact h b (List.mem_cons_self b bs)

lemma poolGet_rest {l : List Buffer} {c : Nat}
    (h : ∀ b ∈ l, b.capacity = c) : ∀ b ∈ (poolGet l c).2, b.capacity = c := by
  cases l with
  | nil => intro b hb; cases hb
  | cons x xs => exact fun b hb => h b (List.mem_cons_of_mem x hb)

lemma newPool_wf : PoolWF NewTieredBufferPool := by
  refine ⟨?_, ?_, ?_⟩ <;> intro b hb <;> cases hb

lemma get_capacity_of_wf {p : TieredBufferPool} (hw : PoolWF p) (n : Int) :
    (p.Get n).1.capacity = tierCap (tierFor n) := by
  unfold TieredBufferPool.Get tierFor
  by_cases h1 : n ≤ 512
  · simp only [if_pos h1, tierCap]
    exact poolGet_capacity hw.1
  · by_cases h2 : n ≤ 4096
    · simp only [if_neg h1, if_pos h2, tierCap]
      exact poolGet_capacity hw.2.1
    · simp only [if_neg h1, if_neg h2, tierCap]
      exact poolGet_capacity hw.2.2

lemma getLarge_capacity_of_wf {p : TieredBufferPool} (hw : PoolWF p) :
    p.GetLarge.1.capacity = largeBufSize := by
  unfold TieredBufferPool.GetLarge
  exact poolGet_capacity hw.2.2

lemma put_routes_to_tier (p : TieredBufferPool) (b : Buffer) (t : Tier)
    (h : b.capacity = tierCap t) : p.Put (some b) = pushTier p t b := by
  cases t <;>
    simp only [TieredBufferPool.Put, pushTier, tierCap, smallBufSize, mediumBufSize,
      largeBufSize] at h ⊢ <;>
    simp [h]

lemma put_discards_foreign (p : TieredBufferPool) (b : Buffer)
    (h : ∀ t : Tier, b.capacity ≠ tierCap t) : p.Put (some b) = p := by
  have h1 := h .small
  have h2 := h .medium
  have h3 := h .large
  simp only [tierCap, smallBufSize, mediumBufSize, largeBufSize] at h1 h2 h3
  simp [TieredBufferPool.Put, h1, h2, h3]

lemma get_preserves_wf {p : TieredBufferPool} (hw : PoolWF p) (n : Int) :
    PoolWF (p.Get n).2 := by
  unfold TieredBufferPool.Get
  by_cases h1 : n ≤ 512
  · simp only [if_pos h1]
    exact ⟨poolGet_rest hw.1, hw.2.1, hw.2.2⟩
  · by_cases h2 : n ≤ 4096
    · simp only [if_neg h1, if_pos h2]
      exact ⟨hw.1, poolGet_rest hw.2.1, hw.2.2⟩
    · simp only [if_neg h1, if_neg h2]
      exact ⟨hw.1, hw.2.1, poolGet_rest hw.2.2⟩

lemma wf_push_of_cap {p : TieredBufferPool} (hw : PoolWF p) (b : Buffer) (t : Tier)
    (h : b.capacity = tierCap t) : PoolWF (pushTier p t b) := by
  cases t with
  | small =>
    refine ⟨?_, hw.2.1, hw.2.2⟩
    intro x hx
    rcases List.mem_cons.mp hx with hx | hx
    · simpa [hx, tierCap] using h
    · exact hw.1 x hx
  | medium =>
    refine ⟨hw.1, ?_, hw.2.2⟩
    intro x hx
    rcases List.mem_cons.mp hx with hx | hx
    · simpa [hx, tierCap] using h
    · exact hw.2.1 x hx
  | large =>
    refine ⟨hw.1, hw.2.1, ?_⟩
    intro x hx
    rcases List.mem_cons.mp hx with hx | hx
    · simpa [hx, tierCap] using h
    · exact hw.2.2 x hx

lemma put_preserves_wf {p : TieredBufferPool} (hw : PoolWF p) (buf : Option Buffer) :
    PoolWF (p.Put buf) := by
  match buf with
  | none => exact hw
  | some b =>
    by_cases h1 : b.capacity = 512
    · rw [put_routes_to_tier p b .small (by simpa [tierCap, smallBufSize] using h1)]
      exact wf_push_of_cap hw b .small (by simpa [tierCap, smallBufSize] using h1)
    · by_cases h2 : b.capacity = 4096
      · rw [put_routes_to_tier p b .medium (by simpa [tierCap, mediumBufSize] using h2)]
        exact wf_push_of_cap hw b .medium (by simpa [tierCap, mediumBufSize] using h2)
      · by_cases h3 : b.capacity = 65536
        · rw [put_routes_to_tier p b .large (by simpa [tierCap, largeBufSize] using h3)]
          exact wf_push_of_cap hw b .large (by simpa [tierCap, largeBufSize] using h3)
        · simpa [TieredBufferPool.Put, h1, h2, h3] using hw

/-- Claim C4: for every requested size `n`, `Get n` yields capacity
exactly 512 when `n ≤ 512`, exactly 4096 when `512 < n ≤ 4096`, and
exactly 65536 otherwise (including every `n > 65536`, with no special
case and no panic — `Get` is total); `GetLarge` always yields capacity
exactly 65536.  Stated for every well-formed pool; well-formedness holds
for `NewTieredBufferPool` and is preserved by every pool operation. -/
theorem bufferpool_get_tier_capacity (p : TieredBufferPool) (hw : PoolWF p) (n : Int) :
    (p.Get n).1.capacity
        = (if n ≤ 512 then 512 else if n ≤ 4096 then 4096 else 65536) ∧
      p.GetLarge.1.capacity = 65536 := by
  constructor
  · have h := get_capacity_of_wf hw n
    unfold tierFor at h
    by_cases h1 : n ≤ 512
    · simpa [h1, tierCap, smallBufSize] using h
    · by_cases h2 : n ≤ 4096
      · simpa [h1, h2, tierCap, mediumBufSize] using h
      · simpa [h1, h2, tierCap, largeBufSize] using h
  · exact getLarge_capacity_of_wf hw

/-- Witness for C4 at a concrete pool and size: the fresh pool is
well-formed, a request of 600 bytes draws a 4096-capacity buffer, and
`GetLarge` draws a 65536-capacity buffer. -/
theorem bufferpool_get_tier_capacity_witness :
    (NewTieredBufferPool.Get 600).1.capacity = 4096 ∧
      NewTieredBufferPool.GetLarge.1.capacity = 65536 := by
  have h := bufferpool_get_tier_capacity NewTieredBufferPool newPool_wf 600
  refine ⟨?_, h.2⟩
  have h600a : ¬ ((600 : Int) ≤ 512) := by decide
  have h600b : (600 : Int) ≤ 4096 := by decide
  simpa [h600a, h600b] using h.1

/-- Claim C5: `Put` routes a non-nil buffer to the small, medium or large
tier exactly when its capacity is exactly 512, 4096 or 65536
respectively; any other capacity is silently discarded (the pool is
unchanged — `Put` is total, so no error and no panic); `Put` after `Get`
pushes the returned buffer onto exactly the tier `Get` drew it from; and
a `Get` never yields a buffer whose capacity differs from its tier's
constant. -/
theorem bufferpool_put_tier_routing (p : TieredBufferPool) (b : Buffer) (hw : PoolWF p) :
    (∀ t : Tier, b.capacity = tierCap t → p.Put (some b) = pushTier p t b) ∧
      ((∀ t : Tier, b.capacity ≠ tierCap t) → p.Put (some b) = p) ∧
      (∀ n : Int,
        (p.Get n).2.Put (some (p.Get n).1) = pushTier (p.Get n).2 (tierFor n) (p.Get n).1) ∧
      (∀ n : Int, (p.Get n).1.capacity = tierCap (tierFor n)) := by
  refine ⟨fun t ht => put_routes_to_tier p b t ht,
    fun h => put_discards_foreign p b h, fun n => ?_, fun n => get_capacity_of_wf hw n⟩
  exact put_routes_to_tier _ _ _ (get_capacity_of_wf hw n)

/-- Witness for C5 at concrete inputs: on the fresh pool, putting a
512-capacity buffer lands in the small tier, and a `Get 100` followed by
a `Put` of its result restores the buffer to the small tier it came
from. -/
theorem bufferpool_put_tier_routing_witness :
    NewTieredBufferPool.Put (some { capacity := 512 })
        = pushTier NewTieredBufferPool .small { capacity := 512 } ∧
      (NewTieredBufferPool.Get 100).2.Put (some (NewTieredBufferPool.Get 100).1)
        = pushTier (NewTieredBufferPool.Get 100).2 (tierFor 100)
            (NewTieredBufferPool.Get 100).1 := by
  have h := bufferpool_put_tier_routing NewTieredBufferPool { capacity := 512 } newPool_wf
  exact ⟨h.1 .small (by decide), h.2.2.1 100⟩

/-! ## TCP serving layer (proxy/tcp.go)

`serveTCPConn` loops: acquire an admission token (a send on the
`inflightRequests` channel), take a large buffer, read one
length-prefixed frame; on read error or a too-small frame it releases
buffer and token and returns; otherwise it spawns a per-query task
(after `wg.Add(1)`).  The task parses the query, resolves it, writes a
response (or a synthesized SERVFAIL), and in a deferred block recovers
any panic, releases both buffers and the token, and logs one record. -/

/-- Protocol maximum for one TCP-framed DNS message (tcp.go line 19). -/
def maxTCPSize : Nat := 65535

/-- Server-failure response code (`dnsmessage.RCodeServerFailure`). -/
def RCodeServerFailure : Nat := 2

/-- A parsed DNS query as far as the TCP task consumes it: transaction
id and raw question section. -/
structure DNSQuery where
  id : Nat
  question : List Nat
deriving DecidableEq

/-- A wire DNS response as far as synthesis is concerned. -/
structure DNSResponse where
  id : Nat
  rcode : Nat
  question : List Nat
deriving DecidableEq

/-- Modelled from the spec: `replyRCode` is not under src/ (only its call
site in tcp.go line 111 is); per the spec it synthesizes a minimal
response with the given response code reusing the original question
section. -/
def replyRCode (rcode : Nat) (q : DNSQuery) : DNSResponse :=
  { id := q.id, rcode := rcode, question := q.question }

/-- Outcome of the `p.Resolve` call inside a per-query task: either a
returned pair (byte count, error flag), or a panic raised during the
call (the task body's panic site between installation of the deferred
cleanup and the response write). -/
inductive ResolveOutcome where
  | value (rsize : Int) (isErr : Bool)
  | panicked
deriving DecidableEq

/-- What the per-query task writes to the connection, when it writes. -/
inductive WrittenResponse where
  | upstream (rsize : Int)
  | synthesized (r : DNSResponse)
deriving DecidableEq

/-- The error value the per-query task ends up logging. -/
inductive QueryError where
  | panicWithStack
  | resolveFailed
deriving DecidableEq

/-- Observable effects of one per-query TCP task. -/
structure TaskEffects where
  parseErrorLogged : Bool
  resolveCalled : Bool
  written : Option WrittenResponse
  buffersReleased : Nat
  tokenReleases : Nat
  recordsLogged : Nat
  panicPropagated : Bool
  err : Option QueryError
deriving DecidableEq

/-- The per-query task spawned by `serveTCPConn` (tcp.go lines 69-118).
`parseOk` is whether `query.New` succeeded (on failure the error is
logged and execution continues, lines 76-79).  A panic unwinds into the
deferred block (lines 81-103): `recover` converts it to an error with a
captured stack trace, both buffers and the admission token are released
and one record is logged — but the response write (line 113) is skipped,
so nothing is written.  On a normal return from `Resolve`, an error, a
byte count `≤ 0`, or one above `maxTCPSize` triggers the synthesized
SERVFAIL (lines 110-112), which is then written. -/
def runTCPQueryTask (q : DNSQuery) (parseOk : Bool) (res : ResolveOutcome) : TaskEffects :=
  match res with
  | .panicked =>
    { parseErrorLogged := !parseOk
      resolveCalled := true
      written := none
      buffersReleased := 2
      tokenReleases := 1
      recordsLogged := 1
      panicPropagated := false
      err := some .panicWithStack }
  | .value rsize isErr =>
    { parseErrorLogged := !parseOk
      resolveCalled := true
      written :=
        some (if isErr = true ∨ rsize ≤ 0 ∨ rsize > (maxTCPSize : Int) then
          .synthesized (replyRCode RCodeServerFailure q)
        else
          .upstream rsize)
      buffersReleased := 2
      tokenReleases := 1
      recordsLogged := 1
      panicPropagated := false
      err := if isErr then some .resolveFailed else none }

/-- One iteration's input to the `serveTCPConn` read loop: either
`readTCP` fails (with or without EOF), or it yields a frame of `qsize`
bytes whose later parse / resolve behave as recorded. -/
inductive FrameEvent where
  | readError (eof : Bool)
  | frame (qsize : Nat) (q : DNSQuery) (parseOk : Bool) (res : ResolveOutcome)
deriving DecidableEq

/-- Accounting result of running `serveTCPConn` on a finite input
stream: tokens acquired at the loop head, tokens released by the loop's
own error paths, the spawned per-query tasks (in order), and the
function's return value. -/
structure ConnRun where
  acquired : Nat
  loopReleases : Nat
  tasks : List TaskEffects
  outcome : Except String Unit

/-- The `serveTCPConn` loop (tcp.go lines 50-119) over a finite event
stream; an exhausted stream means the next read returns EOF.  Every
iteration first acquires one admission token; read errors and too-small
frames (`qsize <= 14`, line 62) release the buffer and the token in the
loop and return; an admitted frame spawns a task after `wg.Add(1)`. -/
def serveTCPConnRun : List FrameEvent → ConnRun
  | [] =>
    { acquired := 1, loopReleases := 1, tasks := [], outcome := Except.ok () }
  | .readError eof :: _ =>
    { acquired := 1, loopReleases := 1, tasks := []
      outcome := if eof then Except.ok () else Except.error "TCP read" }
  | .frame qsize q parseOk res :: rest =>
    if qsize ≤ 14 then
      { acquired := 1, loopReleases := 1, tasks := []
        outcome := Except.error ("query too small: " ++ toString qsize) }
    else
      let r := serveTCPConnRun rest
      { acquired := 1 + r.acquired
        loopReleases := r.loopReleases
        tasks := runTCPQueryTask q parseOk res :: r.tasks
        outcome := r.outcome }

/-- Total admission tokens released by the spawned tasks of a run. -/
def ConnRun.taskTokenReleases (r : ConnRun) : Nat :=
  (r.tasks.map (fun t => t.tokenReleases)).sum

/-- Net admission tokens still held after the loop has returned and all
spawned tasks have completed (computed in `Int` so a leak in either
direction would show). -/
def ConnRun.heldTokens (r : ConnRun) : Int :=
  (r.acquired : Int) - (r.loopReleases : Int) - (r.taskTokenReleases : Int)

lemma runTCPQueryTask_tokenReleases (q : DNSQuery) (parseOk : Bool) (res : ResolveOutcome) :
    (runTCPQueryTask q parseOk res).tokenReleases = 1 := by
  cases res <;> rfl

lemma serveTCPConnRun_balance (events : List FrameEvent) :
    (serveTCPConnRun events).acquired
      = (serveTCPConnRun events).loopReleases + (serveTCPConnRun events).tasks.length := by
  induction events with
  | nil => rfl
  | cons ev rest ih =>
    cases ev with
    | readError eof => rfl
    | frame qsize q parseOk res =>
      by_cases h : qsize ≤ 14
      · simp [serveTCPConnRun, h]
      · simp only [serveTCPConnRun, if_neg h, List.length_cons]
        omega

lemma serveTCPConnRun_task_releases (events : List FrameEvent) :
    ∀ t ∈ (serveTCPConnRun events).tasks, t.tokenReleases = 1 := by
  induction events with
  | nil => intro t ht; cases ht
  | cons ev rest ih =>
    cases ev with
    | readError eof => intro t ht; cases ht
    | frame qsize q parseOk res =>
      by_cases h : qsize ≤ 14
      · simp only [serveTCPConnRun, if_pos h]
        intro t ht; cases ht
      · simp only [serveTCPConnRun, if_neg h]
        intro t ht
        rcases List.mem_cons.mp ht with ht | ht
        · rw [ht]; exact runTCPQueryTask_tokenReleases q parseOk res
        · exact ih t ht

lemma sum_map_ones {α : Type} (f : α → Nat) (ts : List α)
    (h : ∀ t ∈ ts, f t = 1) : (ts.map f).sum = ts.length := by
  induction ts with
  | nil => rfl
  | cons t ts ih =>
    have ht := h t (List.mem_cons_self t ts)
    have hrest := ih (fun x hx => h x (List.mem_cons_of_mem t hx))
    simp only [List.map_cons, List.sum_cons, ht, hrest, List.length_cons]
    omega

lemma serveTCPConnRun_taskTokenReleases (events : List FrameEvent) :
    (serveTCPConnRun events).taskTokenReleases = (serveTCPConnRun events).tasks.length := by
  unfold ConnRun.taskTokenReleases
  exact sum_map_ones _ _ (serveTCPConnRun_task_releases events)

/-- Claim C2: over every sequence of loop inputs, every loop iteration
acquires exactly one admission token, the loop's own exit paths and the
spawned tasks together release every acquired token (each task exactly
once, on every outcome including recovered panic), and so after all
per-query tasks complete the number of held admission tokens is exactly
zero. -/
theorem tcp_admission_token_balance (events : List FrameEvent) :
    (serveTCPConnRun events).heldTokens = 0 ∧
      ∀ t ∈ (serveTCPConnRun events).tasks, t.tokenReleases = 1 := by
  refine ⟨?_, serveTCPConnRun_task_releases events⟩
  unfold ConnRun.heldTokens
  rw [serveTCPConnRun_taskTokenReleases, serveTCPConnRun_balance]
  push_cast
  ring

/-- Claim C6 (amended): the loop rejects every frame whose payload is at
most 14 bytes — strictly below 14 AND exactly 14 — returning the
"query too small" error and dispatching nothing; a frame of at least 15
bytes is admitted and spawns a resolve task.  (tcp.go line 62 tests
`qsize <= 14`, so the boundary value 14 itself is rejected.) -/
theorem tcp_min_frame_boundary (qsize : Nat) (q : DNSQuery) (parseOk : Bool)
    (res : ResolveOutcome) (rest : List FrameEvent) :
    (qsize ≤ 14 →
      (serveTCPConnRun (.frame qsize q parseOk res :: rest)).tasks = [] ∧
        (serveTCPConnRun (.frame qsize q parseOk res :: rest)).outcome
          = Except.error ("query too small: " ++ toString qsize)) ∧
      (14 < qsize →
        (serveTCPConnRun (.frame qsize q parseOk res :: rest)).tasks
          = runTCPQueryTask q parseOk res :: (serveTCPConnRun rest).tasks) := by
  constructor
  · intro h
    constructor
    · simp only [serveTCPConnRun, if_pos h]
    · simp only [serveTCPConnRun, if_pos h]
  · intro h
    simp only [serveTCPConnRun, if_neg (Nat.not_le.mpr h)]

/-- Counterexample to C6 as stated: a frame of exactly the 14-byte
"minimum accepted size" is NOT admitted — the run spawns no task and
returns the "query too small" error. -/
theorem tcp_min_frame_boundary_counterexample :
    (serveTCPConnRun
        [.frame 14 { id := 30, question := [1, 2] } true (.value 12 false)]).tasks = [] ∧
      (serveTCPConnRun
        [.frame 14 { id := 30, question := [1, 2] } true (.value 12 false)]).outcome
          = Except.error "query too small: 14" := by
  exact ⟨rfl, rfl⟩

/-- Witness for C6 at concrete inputs: a 10-byte frame is rejected with
no task spawned, and a 15-byte frame spawns exactly its task. -/
theorem tcp_min_frame_boundary_witness :
    (serveTCPConnRun [.frame 10 { id := 1, question := [] } true (.value 12 false)]).tasks
        = [] ∧
      (serveTCPConnRun [.frame 15 { id := 1, question := [] } true (.value 12 false)]).tasks
        = [runTCPQueryTask { id := 1, question := [] } true (.value 12 false)] := by
  have h10 := (tcp_min_frame_boundary 10 { id := 1, question := [] } true
    (.value 12 false) []).1 (by decide)
  have h15 := (tcp_min_frame_boundary 15 { id := 1, question := [] } true
    (.value 12 false) []).2 (by decide)
  exact ⟨h10.1, by rw [h15]; rfl⟩

/-- Claim C7: whenever `Resolve` returns an error, a byte count `≤ 0`,
or a byte count above the 65535-byte transport limit, the task writes
the synthesized minimal SERVER_FAILURE response, which carries RCode
SERVFAIL and reuses the original question section (tcp.go 110-113). -/
theorem tcp_servfail_fallback (q : DNSQuery) (parseOk : Bool) (rsize : Int) (isErr : Bool)
    (h : isErr = true ∨ rsize ≤ 0 ∨ rsize > (maxTCPSize : Int)) :
    (runTCPQueryTask q parseOk (.value rsize isErr)).written
        = some (.synthesized (replyRCode RCodeServerFailure q)) ∧
      (replyRCode RCodeServerFailure q).rcode = RCodeServerFailure ∧
      (replyRCode RCodeServerFailure q).question = q.question := by
  refine ⟨?_, rfl, rfl⟩
  simp only [runTCPQueryTask, if_pos h]

/-- Witness for C7 at a concrete input: a zero-byte resolve result is
answered with the synthesized SERVFAIL. -/
theorem tcp_servfail_fallback_witness :
    (runTCPQueryTask { id := 9, question := [3] } true (.value 0 false)).written
      = some (.synthesized (replyRCode RCodeServerFailure { id := 9, question := [3] })) :=
  (tcp_servfail_fallback { id := 9, question := [3] } true 0 false
    (Or.inr (Or.inl (by decide)))).1

/-- Claim C8 (amended): a panic inside the per-query task is recovered at
the task boundary and converted into an error carrying a captured stack
trace, full cleanup occurs (both buffers and the admission token are
released and one log record is emitted), and the panic never propagates
to the listener; however, NO response — not even SERVFAIL — is written
for that query, because unwinding into the deferred block skips the
response write at tcp.go line 113. -/
theorem tcp_panic_recovery (q : DNSQuery) (parseOk : Bool) :
    (runTCPQueryTask q parseOk .panicked).panicPropagated = false ∧
      (runTCPQueryTask q parseOk .panicked).err = some .panicWithStack ∧
      (runTCPQueryTask q parseOk .panicked).buffersReleased = 2 ∧
      (runTCPQueryTask q parseOk .panicked).tokenReleases = 1 ∧
      (runTCPQueryTask q parseOk .panicked).recordsLogged = 1 ∧
      (runTCPQueryTask q parseOk .panicked).written = none :=
  ⟨rfl, rfl, rfl, rfl, rfl, rfl⟩

/-- Counterexample to C8 as stated: after a recovered panic the task
writes nothing at all, in particular not the SERVFAIL response the claim
asserts. -/
theorem tcp_panic_no_servfail_counterexample :
    (runTCPQueryTask { id := 7, question := [1, 2, 3] } true .panicked).written = none ∧
      (runTCPQueryTask { id := 7, question := [1, 2, 3] } true .panicked).written
        ≠ some (.synthesized
            (replyRCode RCodeServerFailure { id := 7, question := [1, 2, 3] })) :=
  ⟨rfl, by decide⟩

/-- Claim C9 (amended): a frame whose payload fails to parse
(`query.New` error) does not crash the listener — the parse failure is
logged and the task runs to completion without propagating — but the
query IS still resolved against the upstream (tcp.go lines 76-79 log
the error and fall through to the `p.Resolve` call at line 110), and the
synthesized SERVFAIL is written whenever that resolution fails. -/
theorem tcp_parse_failure_handling (q : DNSQuery) (res : ResolveOutcome) :
    (runTCPQueryTask q false res).parseErrorLogged = true ∧
      (runTCPQueryTask q false res).resolveCalled = true ∧
      (runTCPQueryTask q false res).panicPropagated = false ∧
      ∀ rsize : Int, (runTCPQueryTask q false (.value rsize true)).written
        = some (.synthesized (replyRCode RCodeServerFailure q)) := by
  refine ⟨?_, ?_, ?_, fun rsize => ?_⟩
  · cases res <;> rfl
  · cases res <;> rfl
  · cases res <;> rfl
  · simp [runTCPQueryTask]

/-- Counterexample to C9 as stated: on a concrete parse-failed frame the
task still calls `Resolve`, and when that resolve succeeds its upstream
answer is written — the query was not rejected. -/
theorem tcp_parse_failure_counterexample :
    (runTCPQueryTask { id := 5, question := [1] } false (.value 20 false)).resolveCalled
        = true ∧
      (runTCPQueryTask { id := 5, question := [1] } false (.value 20 false)).written
        = some (.upstream 20) := by
  refine ⟨rfl, ?_⟩
  simp [runTCPQueryTask, maxTCPSize]

/-! ## Frame reader `readTCP` (tcp.go lines 122-131)

The 2-byte length prefix is decoded as a big-endian `uint16`; the input
is a byte stream (values reduced `% 256`, the range of one byte). -/

/-- Result of `readTCP`: the decoded-length read, a failed prefix read,
the "message too large" rejection, or a truncated payload. -/
inductive ReadTCPResult where
  | ok (n : Nat)
  | readFailed
  | tooLarge
  | unexpectedEOF (n : Nat)
deriving DecidableEq

/-- `readTCP`: read two prefix bytes as a big-endian `uint16` length,
reject lengths above `maxTCPSize`, then read exactly that many payload
bytes (a short stream yields `io.ReadFull`'s unexpected-EOF). -/
def readTCP (input : List Nat) : ReadTCPResult :=
  match input with
  | b0 :: b1 :: rest =>
    if b0 % 256 * 256 + b1 % 256 > maxTCPSize then .tooLarge
    else if rest.length < b0 % 256 * 256 + b1 % 256 then
      .unexpectedEOF rest.length
    else .ok (b0 % 256 * 256 + b1 % 256)
  | _ => .readFailed

/-- Claim C10: `readTCP` never returns the "message too large" error:
the maximum value of the big-endian `uint16` length prefix is 65535,
which equals `maxTCPSize`, so the `length > maxTCPSize` guard is
unreachable on every input stream. -/
theorem readTCP_no_too_large (input : List Nat) :
    readTCP input ≠ ReadTCPResult.tooLarge := by
  match input with
  | [] => simp [readTCP]
  | [b0] => simp [readTCP]
  | b0 :: b1 :: rest =>
    have hng : ¬ (b0 % 256 * 256 + b1 % 256 > maxTCPSize) := by
      simp only [maxTCPSize]
      omega
    simp only [readTCP, if_neg hng]
    split <;> simp

/-! ## Join-before-close ordering (tcp.go lines 42-48)

`serveTCPConn` installs `defer { wg.Wait(); c.Close() }` before its read
loop: on any loop exit the `WaitGroup` join runs first, and the socket
is closed only once the group counter has returned to zero.  The model
is a small-step interleaving machine: the read loop (spawning tasks
after `wg.Add(1)`), task completions (`wg.Done`), and the deferred
`wg.Wait(); c.Close()` sequence interleave freely, constrained exactly
as the primitives constrain them. -/

/-- State of one TCP connection: frames not yet read, per-query tasks
spawned but not completed, the `WaitGroup` counter, whether the read
loop has exited into its deferred cleanup, and whether `c.Close()` has
run. -/
structure ConnState where
  pending : List FrameEvent
  running : Nat
  wgCounter : Nat
  loopExited : Bool
  closed : Bool
deriving DecidableEq

/-- Initial state of `serveTCPConn` on an input stream. -/
def initConnState (evs : List FrameEvent) : ConnState :=
  { pending := evs, running := 0, wgCounter := 0, loopExited := false, closed := false }

/-- One scheduler step of the connection machine.  `spawn` is the loop
admitting a frame (`wg.Add(1)` then `go`); `rejectFrame`, `readErr` and
`readEOF` are the loop's returns into the deferred cleanup; `taskDone`
is a task's final `wg.Done()`; `connClose` is the deferred
`wg.Wait(); c.Close()`, which the `WaitGroup` semantics enable only when
the counter is zero. -/
inductive ConnStep : ConnState → ConnState → Prop where
  | spawn (s : ConnState) (qsize : Nat) (q : DNSQuery) (parseOk : Bool)
      (res : ResolveOutcome) (rest : List FrameEvent)
      (hp : s.pending = .frame qsize q parseOk res :: rest) (hq : 14 < qsize)
      (hl : s.loopExited = false) :
      ConnStep s
        { s with pending := rest, running := s.running + 1, wgCounter := s.wgCounter + 1 }
  | rejectFrame (s : ConnState) (qsize : Nat) (q : DNSQuery) (parseOk : Bool)
      (res : ResolveOutcome) (rest : List FrameEvent)
      (hp : s.pending = .frame qsize q parseOk res :: rest) (hq : qsize ≤ 14)
      (hl : s.loopExited = false) :
      ConnStep s { s with pending := rest, loopExited := true }
  | readErr (s : ConnState) (eof : Bool) (rest : List FrameEvent)
      (hp : s.pending = .readError eof :: rest) (hl : s.loopExited = false) :
      ConnStep s { s with pending := rest, loopExited := true }
  | readEOF (s : ConnState) (hp : s.pending = []) (hl : s.loopExited = false) :
      ConnStep s { s with loopExited := true }
  | taskDone (s : ConnState) (hr : 0 < s.running) :
      ConnStep s { s with running := s.running - 1, wgCounter := s.wgCounter - 1 }
  | connClose (s : ConnState) (hl : s.loopExited = true) (hw : s.wgCounter = 0)
      (hc : s.closed = false) :
      ConnStep s { s with closed := true }

/-- States the machine can reach from the initial state. -/
def ConnReachable (evs : List FrameEvent) (s : ConnState) : Prop :=
  Relation.ReflTransGen ConnStep (initConnState evs) s

/-- Machine invariant: the `WaitGroup` counter equals the number of
in-flight tasks, and once the socket is closed the loop has exited and
no task is in flight. -/
def ConnInv (s : ConnState) : Prop :=
  s.wgCounter = s.running ∧ (s.closed = true → s.loopExited = true ∧ s.running = 0)

lemma connInv_init (evs : List FrameEvent) : ConnInv (initConnState evs) := by
  refine ⟨rfl, fun h => ?_⟩
  simp [initConnState] at h

lemma connInv_step {s u : ConnState} (hi : ConnInv s) (hs : ConnStep s u) : ConnInv u := by
  cases hs with
  | spawn qsize q parseOk res rest hp hq hl =>
    constructor
    · show s.wgCounter + 1 = s.running + 1
      rw [hi.1]
    · intro hc
      exfalso
      have h1 := (hi.2 hc).1
      rw [hl] at h1
      exact Bool.false_ne_true h1
  | rejectFrame qsize q parseOk res rest hp hq hl =>
    exact ⟨hi.1, fun hc => ⟨rfl, (hi.2 hc).2⟩⟩
  | readErr eof rest hp hl =>
    exact ⟨hi.1, fun hc => ⟨rfl, (hi.2 hc).2⟩⟩
  | readEOF hp hl =>
    exact ⟨hi.1, fun hc => ⟨rfl, (hi.2 hc).2⟩⟩
  | taskDone hr =>
    constructor
    · show s.wgCounter - 1 = s.running - 1
      rw [hi.1]
    · intro hc
      exfalso
      have h2 := (hi.2 hc).2
      omega
  | connClose hl hw hc =>
    refine ⟨hi.1, fun _ => ⟨hl, ?_⟩⟩
    show s.running = 0
    have h1 := hi.1
    omega

lemma connReachable_inv {evs : List FrameEvent} {s : ConnState}
    (h : ConnReachable evs s) : ConnInv s := by
  induction h with
  | refl => exact connInv_init evs
  | tail _ hstep ih => exact connInv_step ih hstep

/-- Claim C3: in every reachable state of a TCP connection, if the
socket has been closed then no per-query resolve task is still in
flight — `c.Close()` is enabled only after the deferred `wg.Wait()`
observes a zero counter, which equals the number of in-flight tasks.
Hence a resolve task (which can only write while in flight) never
writes to an already-closed connection. -/
theorem tcp_close_after_join (evs : List FrameEvent) (s : ConnState)
    (h : ConnReachable evs s) (hc : s.closed = true) : s.running = 0 :=
  ((connReachable_inv h).2 hc).2

/-- Witness for C3: a concretely reachable closed state (empty stream:
the read returns EOF, the loop exits, the join passes, the socket is
closed), at which the theorem yields zero in-flight tasks. -/
theorem tcp_close_after_join_witness :
    ConnReachable []
        { pending := [], running := 0, wgCounter := 0, loopExited := true, closed := true } ∧
      ({ pending := [], running := 0, wgCounter := 0, loopExited := true,
          closed := true } : ConnState).running = 0 := by
  have step1 : ConnStep (initConnState []) (⟨[], 0, 0, true, false⟩ : ConnState) :=
    ConnStep.readEOF _ rfl rfl
  have step2 : ConnStep (⟨[], 0, 0, true, false⟩ : ConnState)
      (⟨[], 0, 0, true, true⟩ : ConnState) :=
    ConnStep.connClose _ rfl rfl rfl
  have hr : ConnReachable []
      { pending := [], running := 0, wgCounter := 0, loopExited := true, closed := true } :=
    Relation.ReflTransGen.tail (Relation.ReflTransGen.single step1) step2
  exact ⟨hr, tcp_close_after_join [] _ hr rfl⟩

/-! ## DNS53 bounded-retry read loop

`dns53.go` itself is not among the sources here — only its tests
(`resolver/dns53_test.go`, and the discovery regression test) and the
spec describe it — so the loop is modelled from the spec: after writing
the query over UDP, the resolver loops reading datagrams; each datagram
is checked for (a) minimum viable header length and (b) transaction-ID
equality with the outgoing query; an invalid datagram is discarded and
counted, and exceeding the retry ceiling `maxRetries = 5` fails with
one of two distinct stable messages.  The exact loop shape is fixed by
the tests: six invalid datagrams trigger the failure (so the sixth
invalid read errors out), and N < 5 wrong-ID datagrams followed by a
correct one still succeed. -/

/-- Modelled from the spec: the DNS53 retry ceiling (`maxRetries` in
`DNS53.resolve`, confirmed by dns53_test.go lines 258 and 308). -/
def maxRetries : Nat := 5

/-- Modelled from the spec: the minimum viable DNS header length used by
the too-short check (12 bytes, the DNS fixed header). -/
def minViableDNSLen : Nat := 12

/-- One upstream UDP datagram as the correlation checks see it: its
length and its embedded transaction ID. -/
structure Datagram where
  size : Nat
  dnsID : Nat
deriving DecidableEq

/-- Result of the read loop, with the number of datagram reads
performed: a correlated response, a stable retry-ceiling failure, or an
exhausted stream (the real loop would block on the socket until the
context deadline — irrelevant to the always-invalid upstreams of the
claim, which supply unboundedly many datagrams). -/
inductive DNS53Result where
  | success (reads : Nat)
  | failure (msg : String) (reads : Nat)
  | blocked (reads : Nat)
deriving DecidableEq

/-- Modelled from the spec: the DNS53 UDP read loop.  `retries` counts
discarded datagrams so far; a too-short datagram is discarded first,
then an ID-mismatched one; the discard that would exceed the ceiling
fails instead with the corresponding stable message. -/
def dns53ReadLoopAux (qid : Nat) (ds : List Datagram) (retries reads : Nat) : DNS53Result :=
  match ds with
  | [] => .blocked reads
  | d :: rest =>
    if d.size < minViableDNSLen then
      if maxRetries ≤ retries then
        .failure "max retries exceeded waiting for valid response" (reads + 1)
      else dns53ReadLoopAux qid rest (retries + 1) (reads + 1)
    else if d.dnsID ≠ qid then
      if maxRetries ≤ retries then
        .failure "max retries exceeded: DNS ID mismatch" (reads + 1)
      else dns53ReadLoopAux qid rest (retries + 1) (reads + 1)
    else .success (reads + 1)

/-- The read loop as entered by `DNS53.resolve` after sending a query
with transaction ID `qid`. -/
def dns53ReadLoop (qid : Nat) (ds : List Datagram) : DNS53Result :=
  dns53ReadLoopAux qid ds 0 0

lemma dns53_aux_all_short (qid : Nat) :
    ∀ (ds : List Datagram) (retries reads : Nat), retries ≤ maxRetries →
      maxRetries + 1 - retries ≤ ds.length →
      (∀ d ∈ ds, d.size < minViableDNSLen) →
      dns53ReadLoopAux qid ds retries reads
        = .failure "max retries exceeded waiting for valid response"
            (reads + (maxRetries + 1 - retries)) := by
  intro ds
  induction ds with
  | nil =>
    intro retries reads h1 h2 h3
    exfalso
    simp only [List.length_nil, maxRetries] at h1 h2
    omega
  | cons d rest ih =>
    intro retries reads h1 h2 h3
    have hd : d.size < minViableDNSLen := h3 d (List.mem_cons_self _ _)
    by_cases hr : maxRetries ≤ retries
    · simp only [dns53ReadLoopAux, if_pos hd, if_pos hr]
      congr 1
      simp only [maxRetries] at h1 hr ⊢
      omega
    · simp only [dns53ReadLoopAux, if_pos hd, if_neg hr]
      rw [ih (retries + 1) (reads + 1) (by simp only [maxRetries] at hr ⊢; omega)
        (by simp only [List.length_cons, maxRetries] at h2 ⊢; omega)
        (fun x hx => h3 x (List.mem_cons_of_mem _ hx))]
      congr 1
      simp only [maxRetries] at hr ⊢
      omega

lemma dns53_aux_all_mismatch (qid : Nat) :
    ∀ (ds : List Datagram) (retries reads : Nat), retries ≤ maxRetries →
      maxRetries + 1 - retries ≤ ds.length →
      (∀ d ∈ ds, minViableDNSLen ≤ d.size ∧ d.dnsID ≠ qid) →
      dns53ReadLoopAux qid ds retries reads
        = .failure "max retries exceeded: DNS ID mismatch"
            (reads + (maxRetries + 1 - retries)) := by
  intro ds
  induction ds with
  | nil =>
    intro retries reads h1 h2 h3
    exfalso
    simp only [List.length_nil, maxRetries] at h1 h2
    omega
  | cons d rest ih =>
    intro retries reads h1 h2 h3
    have hd := h3 d (List.mem_cons_self _ _)
    have hns : ¬ (d.size < minViableDNSLen) := Nat.not_lt.mpr hd.1
    by_cases hr : maxRetries ≤ retries
    · simp only [dns53ReadLoopAux, if_neg hns, if_pos hd.2, if_pos hr]
      congr 1
      simp only [maxRetries] at h1 hr ⊢
      omega
    · simp only [dns53ReadLoopAux, if_neg hns, if_pos hd.2, if_neg hr]
      rw [ih (retries + 1) (reads + 1) (by simp only [maxRetries] at hr ⊢; omega)
        (by simp only [List.length_cons, maxRetries] at h2 ⊢; omega)
        (fun x hx => h3 x (List.mem_cons_of_mem _ hx))]
      congr 1
      simp only [maxRetries] at hr ⊢
      omega

/-- Claim C1: against an upstream whose datagrams are always too short,
or always carry a transaction ID different from the outgoing query's,
the DNS53 read loop terminates (it is a total function) with an error
after exactly 6 reads — at most 6 read attempts with retry ceiling
`maxRetries = 5` — and the error message is exactly
"max retries exceeded waiting for valid response" in the too-short case
and exactly "max retries exceeded: DNS ID mismatch" in the
ID-mismatched case. -/
theorem dns53_retry_ceiling (qid : Nat) (ds : List Datagram) (h6 : 6 ≤ ds.length) :
    ((∀ d ∈ ds, d.size < minViableDNSLen) →
      dns53ReadLoop qid ds
        = .failure "max retries exceeded waiting for valid response" 6) ∧
      ((∀ d ∈ ds, minViableDNSLen ≤ d.size ∧ d.dnsID ≠ qid) →
        dns53ReadLoop qid ds = .failure "max retries exceeded: DNS ID mismatch" 6) := by
  constructor
  · intro h
    have hx := dns53_aux_all_short qid ds 0 0 (by simp [maxRetries])
      (by simpa [maxRetries] using h6) h
    simpa [dns53ReadLoop, maxRetries] using hx
  · intro h
    have hx := dns53_aux_all_mismatch qid ds 0 0 (by simp [maxRetries])
      (by simpa [maxRetries] using h6) h
    simpa [dns53ReadLoop, maxRetries] using hx

/-- Witness for C1 at concrete input: six 1-byte datagrams (all below
the minimum viable header length) make the loop fail with the exact
too-short retry-ceiling message after 6 reads. -/
theorem dns53_retry_ceiling_witness :
    6 ≤ (List.replicate 6 ({ size := 1, dnsID := 0 } : Datagram)).length ∧
      dns53ReadLoop 7 (List.replicate 6 { size := 1, dnsID := 0 })
        = .failure "max retries exceeded waiting for valid response" 6 := by
  refine ⟨by decide, ?_⟩
  exact (dns53_retry_ceiling 7 _ (by decide)).1 (by decide)
